import Mathlib

/-!
Shallow embedding of the palabra-ai client core (task supervisor, fan-out
message bus, dedup, audio framing, config serialization) together with
theorems settling the specification claims against it.

Every definition mirrors a function of the repository source; the module and
symbol it embeds are named in its doc comment.  A few modules of the
repository are not present under `src/` (only their tests and callers are);
definitions for those are explicitly marked `Modelled from the spec:`.
-/

namespace Palabra

/-! ## `util/capped_set.py` — CappedSet

The module `palabra_ai/util/capped_set.py` itself is absent from the source
tree (only its tests and its use in `task/realtime.py` are present). -/

/-- Modelled from the spec: `palabra_ai/util/capped_set.py` is missing from
the source tree.  Per the spec (§4.5) the CappedSet is an "ordered set of at
most N keys (N=100). `add(k)`: if `k` present, no-op; else insert at tail; if
`|set|>N`, evict head", matching the behaviour its unit tests
(`tests/util/test_capped_set.py`) assert.  `elems` is the insertion-ordered
contents, head first. -/
structure CappedSet (K : Type) where
  capacity : Nat
  elems : List K
  deriving Repr

namespace CappedSet

/-- `CappedSet(capacity)` constructor with empty contents. -/
def empty (K : Type) (capacity : Nat) : CappedSet K :=
  { capacity := capacity, elems := [] }

/-- `k in cs` membership test. -/
def contains {K : Type} [DecidableEq K] (s : CappedSet K) (k : K) : Bool :=
  s.elems.contains k

/-- `CappedSet.add`: no-op when present, else append at the tail and evict the
head when the capacity is exceeded. -/
def add {K : Type} [DecidableEq K] (s : CappedSet K) (k : K) : CappedSet K :=
  if s.contains k then s
  else
    let grown := s.elems ++ [k]
    if s.capacity < grown.length then
      { s with elems := grown.tail }
    else
      { s with elems := grown }

/-- `len(cs)`. -/
def size {K : Type} (s : CappedSet K) : Nat := s.elems.length

end CappedSet

/-! ## `util/fanout_queue.py` — FanoutQueue -/

/-- An `asyncio.Queue` as used by the fan-out bus: a bounded FIFO of
`Option T` items (`none` is the end-of-stream sentinel the bus itself
enqueues).  `maxsize = 0` means unbounded, as in asyncio. -/
structure BQueue (T : Type) where
  maxsize : Nat
  items : List (Option T)
  deriving Repr

/-- `asyncio.Queue.put_nowait`: appends, or fails (`QueueFull → none`) when a
bounded queue is at capacity. -/
def BQueue.put_nowait {T : Type} (q : BQueue T) (m : Option T) : Option (BQueue T) :=
  if q.maxsize ≠ 0 ∧ q.maxsize ≤ q.items.length then none
  else some { q with items := q.items ++ [m] }

/-- Whether `put_nowait` would raise `QueueFull`. -/
def BQueue.isFull {T : Type} (q : BQueue T) : Bool :=
  q.maxsize ≠ 0 && q.maxsize ≤ q.items.length

/-- `FanoutQueue` (`util/fanout_queue.py`): subscriber-id → bounded queue
mapping plus the closed flag.  The dict is an association list keyed by the
subscriber id string. -/
structure FanoutQueue (T : Type) where
  subscribers : List (String × BQueue T)
  closed : Bool
  deriving Repr

namespace FanoutQueue

/-- `FanoutQueue.publish`: raises (`none`) when closed; otherwise enqueues on
every subscriber's queue with `put_nowait`, dropping the message for exactly
the subscribers whose queue is full (the `except asyncio.QueueFull` branch
logs and skips). -/
def publish {T : Type} (f : FanoutQueue T) (m : Option T) :
    Option (FanoutQueue T) :=
  if f.closed then none
  else some
    { f with
      subscribers := f.subscribers.map fun (sid, q) =>
        match q.put_nowait m with
        | some q' => (sid, q')
        | none => (sid, q) }

end FanoutQueue

/-! ## `base/message.py` — messages and the dedup key

`palabra_ai/base/message.py` is absent from the source tree (only its tests
and its importers are present). -/

/-- Modelled from the spec: `palabra_ai/base/message.py` is missing from the
source tree.  Per the spec (§3) the inbound control messages relevant to
routing are TranscriptionMessages, carrying
`{kind, transcription_id, text, language, segments}`, and non-transcription
messages (status, timings, …), here kept abstract by their type tag. -/
inductive Msg where
  | transcription (transcription_id : String) (text : String) (kind : String)
      (language : String)
  | other (message_type : String)
  deriving Repr, DecidableEq

/-- Modelled from the spec: the dedup key is "a deterministic digest of
`(transcription_id, text, kind)`" (§3); the digest is injective for the
purposes of this model, so the key is the triple itself. -/
def Msg.dedup : Msg → Option (String × String × String)
  | .transcription tid text kind _ => some (tid, text, kind)
  | .other _ => none

/-! ## `task/realtime.py` — Realtime dedup and inbound routing -/

/-- Dedup key type used by `Realtime._dedup : CappedSet[str]`. -/
abbrev DedupKey := String × String × String

/-- `Realtime.dedup_ok` (`task/realtime.py`): non-transcription messages pass;
a transcription message passes iff its dedup key is not in the capped set, in
which case the key is added.  Returns the verdict and the updated set. -/
def dedupOk (s : Palabra.CappedSet DedupKey) (m : Msg) :
    Bool × Palabra.CappedSet DedupKey :=
  match m.dedup with
  | none => (true, s)
  | some key =>
      if s.contains key then (false, s)
      else (true, s.add key)

/-- `Realtime._route_ws_out` / `_route_webrtc_out` (`task/realtime.py`): for
each inbound message, publish it to `out_foq` iff `dedup_ok` is true.
Returns the list of published messages and the final dedup set. -/
def routeOut (s : Palabra.CappedSet DedupKey) :
    List Msg → List Msg × Palabra.CappedSet DedupKey
  | [] => ([], s)
  | m :: rest =>
      let step := dedupOk s m
      let r := routeOut step.2 rest
      (if step.1 then m :: r.1 else r.1, r.2)

/-! ## `task/sender.py` — SenderSourceAudio -/

/-- One result of `await self.reader.read()` in `SenderSourceAudio.do`:
`none` is EOF, otherwise a (possibly empty) PCM16 byte chunk. -/
abbrev ReadResult := Option (List Nat)

/-- Observable outcome of `SenderSourceAudio.do` (`task/sender.py`): whether
the `eof` latch was raised, the chunks pushed to the media track, the
messages emitted on the control path (`in_foq`), and the reads consumed. -/
structure SenderRun where
  eofSet : Bool
  pushed : List (List Nat)
  controlMsgs : List Msg
  readsConsumed : Nat
  deriving Repr, DecidableEq

/-- `SenderSourceAudio.do` (`task/sender.py` lines 43–55) over the sequence
of values `Reader.read()` will return, with `stopper`/`eof` initially unset:
on `None` raise `eof` and break; skip empty chunks; otherwise push the chunk
to the media track.  The loop emits no control-path message.  When the read
sequence is exhausted without EOF the loop is still awaiting the reader; the
run up to that point is returned. -/
def senderDo : List ReadResult → SenderRun
  | [] => { eofSet := false, pushed := [], controlMsgs := [], readsConsumed := 0 }
  | none :: _ =>
      { eofSet := true, pushed := [], controlMsgs := [], readsConsumed := 1 }
  | some chunk :: rest =>
      let r := senderDo rest
      if chunk.isEmpty then
        { r with readsConsumed := r.readsConsumed + 1 }
      else
        { r with pushed := chunk :: r.pushed, readsConsumed := r.readsConsumed + 1 }

/-- `Ws.close` (`internal/ws.py`): when `_keep_running` is still true it sends
`EndTaskMessage(force=True)` on the control path before cancelling the join
task; when already stopped it returns without sending.  Returns the control
messages sent. -/
def wsClose (keepRunning : Bool) : List Msg :=
  if keepRunning then [Msg.other "end_task"] else []

/-! ## `base/task.py` — Task.run -/

/-- The outcome of awaiting a task phase (`boot()` or `do()`): normal return,
`asyncio.CancelledError`, or another exception carrying a description. -/
inductive Outcome where
  | ok
  | cancelled
  | error (e : String)
  deriving Repr, DecidableEq

/-- What a single execution of `Task.run` (`base/task.py` lines 77–110) did:
which latches ended up set, whether the `exit` hook ran, and which exception
(if any) escaped `run()` to the surrounding task group. -/
structure RunResult where
  readySet : Bool
  stopperSet : Bool
  exitRan : Bool
  escaped : Option String
  deriving Repr, DecidableEq

/-- `Task.run` (`base/task.py` lines 77–110) as a function of the outcomes of
`boot()` and of `do()` (the latter consulted only when boot returned
normally).  The `except asyncio.CancelledError` and `except Exception`
branches both log and fall through without re-raising (the `raise`
statements are commented out in the source), so the `finally` block raises
`stopper`, awaits `_exit()`, and `run` returns normally. -/
def taskRun (bootOut doOut : Outcome) : RunResult :=
  match bootOut with
  | .error _ =>
      { readySet := false, stopperSet := true, exitRan := true, escaped := none }
  | .cancelled =>
      { readySet := false, stopperSet := true, exitRan := true, escaped := none }
  | .ok =>
      match doOut with
      | .error _ =>
          { readySet := true, stopperSet := true, exitRan := true, escaped := none }
      | .cancelled =>
          { readySet := true, stopperSet := true, exitRan := true, escaped := none }
      | .ok =>
          { readySet := true, stopperSet := true, exitRan := true, escaped := none }

/-! ## `base/adapter.py` — Writer._process_queue -/

/-- One iteration's input to `Writer._process_queue` (`base/adapter.py`
lines 58–87): what `await asyncio.wait_for(self.q.get(), timeout=0.1)`
produces, or the interrupt that hits the iteration. -/
inductive WEvent where
  /-- a real `AudioFrame` was dequeued (identified by an index) -/
  | frame (f : Nat)
  /-- the 0.1 s `TimeoutError` fired; the loop continues -/
  | timeoutTick
  /-- the `None` end-of-stream sentinel was dequeued -/
  | sentinel
  /-- `asyncio.CancelledError` was raised into the wait -/
  | cancel
  /-- `self._write_frame(frame)` raised on this frame -/
  | writeError (f : Nat)
  deriving Repr, DecidableEq

/-- How `_process_queue` terminated. -/
inductive WOutcome where
  | normal
  | cancelled
  | errored
  deriving Repr, DecidableEq

/-- Result of a terminated `_process_queue` run: frames written, how many
times the `finally` block invoked `self._finalize()`, whether the `eof`
latch was raised, and the termination mode. -/
structure WQResult where
  written : List Nat
  finalizeRuns : Nat
  eofSet : Bool
  outcome : WOutcome
  deriving Repr, DecidableEq

/-- `Writer._process_queue` (`base/adapter.py` lines 58–87) over a script of
per-iteration inputs.  Each pair gives the externally visible `stopper` flag
at that iteration's `while not self.stopper or not self.eof` check, then the
event.  `eof` starts out as given and is raised by the `None` sentinel.  The
`try`'s `finally` block runs `self._finalize()` on every way out of the
loop: normal exit, sentinel break, cancellation, or a `_write_frame` error.
Returns `none` when the script ends with the loop still waiting on the
queue. -/
def processQueue (eof : Bool) : List (Bool × WEvent) → Option WQResult
  | [] => none
  | (stopper, ev) :: rest =>
      if stopper ∧ eof then
        some { written := [], finalizeRuns := 1, eofSet := eof, outcome := .normal }
      else
        match ev with
        | .frame f =>
            (processQueue eof rest).map fun r => { r with written := f :: r.written }
        | .timeoutTick => processQueue eof rest
        | .sentinel =>
            some { written := [], finalizeRuns := 1, eofSet := true,
                   outcome := .normal }
        | .cancel =>
            some { written := [], finalizeRuns := 1, eofSet := eof,
                   outcome := .cancelled }
        | .writeError _ =>
            some { written := [], finalizeRuns := 1, eofSet := eof,
                   outcome := .errored }

/-- `Writer.exit` (`base/adapter.py` lines 98–108): enqueues the `None`
sentinel and awaits the processing task; it performs no finalize call of its
own (`_finalize` is reached only through `_process_queue`'s `finally`). -/
def writerExitFinalizeCalls : Nat := 0

/-! ## `task/manager.py` — shutdown ordering -/

/-- The tasks the Manager owns. -/
inductive TaskId where
  | reader | sender | receiver | rtmon | transcription | rt
  | writer | manager | stat
  deriving Repr, DecidableEq

/-- Events of the observed shutdown trace. -/
inductive MEv where
  /-- `+task.stopper` executed for this task -/
  | stopperRaise (t : TaskId)
  /-- `await`ing this task's shutdown completed (normally, by timeout
  escalation, or with a logged error) -/
  | awaited (t : TaskId)
  /-- `await asyncio.sleep(SAFE_PUBLICATION_END_DELAY)` finished -/
  | slept
  deriving Repr, DecidableEq

/-- One `asyncio.gather(shutdown_task(t₁), …, shutdown_task(tₙ))` section of
`Manager.graceful_exit` (`task/manager.py` lines 216–256): each
`shutdown_task` body starts by synchronously raising the task's stopper
before its first `await`, so all the stopper raises happen (in argument
order) before any of the shutdowns is observed to complete; the completions
then land in an arbitrary order `order`, and the gather returns only after
all of them. -/
def gatherShutdown (ts : List TaskId) (order : List TaskId) : List MEv :=
  ts.map MEv.stopperRaise ++ order.map MEv.awaited

/-- The shutdown trace of the Manager (`task/manager.py`): at the end of
`Manager.do` (lines 151–168) it raises its own stopper and awaits
`graceful_exit` (reader and sender first, the post-EOS delay, then receiver,
rtmon, transcription and realtime); `run`'s `finally` then raises the
stopper again and awaits `Manager.exit` (lines 170–190), whose
`writer_mercy` raises the Writer's stopper and awaits the writer task before
`Writer.finalize` can be reached, after which the stat (and any logger)
stoppers are raised.  `order₁`/`order₂` are the completion orders inside the
two gathers. -/
def managerShutdownTrace (order₁ order₂ : List TaskId) : List MEv :=
  [MEv.stopperRaise .manager]
    ++ gatherShutdown [.reader, .sender] order₁
    ++ [MEv.slept]
    ++ gatherShutdown [.receiver, .rtmon, .transcription, .rt] order₂
    ++ [MEv.stopperRaise .manager]
    ++ [MEv.stopperRaise .writer, MEv.awaited .writer]
    ++ [MEv.stopperRaise .manager, MEv.stopperRaise .stat]

/-! ## `base/audio.py` — AudioFrame -/

/-- Interpret a pair of bytes as a little-endian signed 16-bit sample, as
`np.frombuffer(data, dtype=np.int16)` does. -/
def toInt16 (lo hi : Nat) : Int :=
  let v := (lo + 256 * hi) % 65536
  if 32768 ≤ v then (v : Int) - 65536 else (v : Int)

/-- `np.frombuffer(bytes, dtype=np.int16)`: reinterpret a byte string as
int16 samples; raises (`none`) when the byte count is odd. -/
def bytesToSamples : List Nat → Option (List Int)
  | [] => some []
  | [_] => none
  | lo :: hi :: rest => (bytesToSamples rest).map fun s => toInt16 lo hi :: s

/-- The buffer an `AudioFrame` ends up holding in `self.data`: either an
int16 sample array (`np.frombuffer` result or an ndarray passed in), or a
buffer that was **not** converted — `__init__` only converts when
`isinstance(data, bytes)`, and a `bytearray` or `memoryview` fails that
check and is stored verbatim, so Python `len(self.data)` then counts
bytes. -/
inductive PCMData where
  /-- an int16 ndarray; `len` counts samples -/
  | samples (xs : List Int)
  /-- an unconverted raw buffer (`bytearray`); `len` counts bytes -/
  | raw (bs : List Nat)
  deriving Repr, DecidableEq

/-- Python `len(self.data)` for the stored buffer. -/
def PCMData.len : PCMData → Nat
  | .samples xs => xs.length
  | .raw bs => bs.length

/-- The `data` argument of `AudioFrame.__init__`: a Python `bytes` object
(which the `isinstance(data, bytes)` branch converts with `np.frombuffer`),
or any other buffer (ndarray, `bytearray`, `memoryview`), which is stored
as-is. -/
inductive AudioData where
  | pybytes (bs : List Nat)
  | pyraw (d : PCMData)
  deriving Repr, DecidableEq

/-- `AudioFrame` (`base/audio.py`): the stored buffer plus metadata. -/
structure AudioFrame where
  data : PCMData
  sample_rate : Nat
  num_channels : Nat
  samples_per_channel : Nat
  deriving Repr, DecidableEq

namespace AudioFrame

/-- `AudioFrame.__init__` (`base/audio.py` lines 17–36): a `bytes` argument
is reinterpreted via `np.frombuffer(data, dtype=np.int16)` (failing on an
odd byte count); any other buffer is stored verbatim.  When
`samples_per_channel` is not given it is derived as
`len(self.data) // num_channels` from the *stored* buffer; when given it is
stored unchecked. -/
def init (data : AudioData) (sample_rate num_channels : Nat)
    (samples_per_channel : Option Nat) : Option AudioFrame :=
  match data with
  | .pybytes bs =>
      (bytesToSamples bs).map fun xs =>
        { data := .samples xs
          sample_rate := sample_rate
          num_channels := num_channels
          samples_per_channel :=
            samples_per_channel.getD (xs.length / num_channels) }
  | .pyraw d =>
      some
        { data := d
          sample_rate := sample_rate
          num_channels := num_channels
          samples_per_channel := samples_per_channel.getD (d.len / num_channels) }

/-- `AudioFrame.create` (`base/audio.py` lines 38–56): builds a zeroed
`bytearray` of `num_channels * samples_per_channel * sizeof(int16)` bytes
and passes it to `__init__` with the explicit `samples_per_channel`.  A
`bytearray` is not an instance of `bytes`, so the buffer is stored
unconverted. -/
def create (sample_rate num_channels samples_per_channel : Nat) :
    Option AudioFrame :=
  init (.pyraw (.raw (List.replicate (num_channels * samples_per_channel * 2) 0)))
    sample_rate num_channels (some samples_per_channel)

/-- `AudioFrame.from_rtc` (`base/audio.py`): passes the LiveKit frame's
buffer (a non-`bytes` buffer, stored verbatim) and metadata, with its
`samples_per_channel` explicit. -/
def from_rtc (data : PCMData) (sample_rate num_channels samples_per_channel : Nat) :
    Option AudioFrame :=
  init (.pyraw data) sample_rate num_channels (some samples_per_channel)

/-- The spec's AudioFrame invariant (§3):
`len(pcm) = num_channels * samples_per_channel`. -/
def invariantHolds (f : AudioFrame) : Prop :=
  f.data.len = f.num_channels * f.samples_per_channel

instance (f : AudioFrame) : Decidable f.invariantHolds := by
  unfold invariantHolds; infer_instance

end AudioFrame

/-! ## `base/audio.py` — AudioFrame.from_ws -/

/-- The `data.data` field of an `output_audio_data` message: a base64 string
modelled by its decode result — the decoded bytes when it is valid base64,
or an invalid marker (`b64valid = false`), in which case `base64.b64decode`
raises and the `except` branch of `from_ws` logs and returns `None`. -/
structure B64 where
  b64valid : Bool
  bytes : List Nat
  deriving Repr, DecidableEq

/-- `base64.b64decode` over the model. -/
def b64decode (b : B64) : Option (List Nat) :=
  if b.b64valid then some b.bytes else none

/-- The decoded JSON body of a WebSocket frame as far as `from_ws` inspects
it: the `message_type` string and the optional `data.data` payload
(`payload = none` models a missing `data` or `data.data` key). -/
structure WsBody where
  message_type : String
  payload : Option B64
  deriving Repr, DecidableEq

/-- A raw WebSocket frame as received by `AudioFrame.from_ws`: whether it
arrived as `bytes` (vs `str`), its decoded JSON body, and whether the
substring `output_audio_data` occurs in the raw text anywhere other than as
the `message_type` value (it always occurs when the `message_type` *is*
`output_audio_data`, since the JSON text spells the value out). -/
structure RawWs where
  isBytes : Bool
  body : WsBody
  tagElsewhere : Bool
  deriving Repr, DecidableEq

/-- Whether the raw frame contains the substring `output_audio_data`. -/
def RawWs.containsTag (r : RawWs) : Bool :=
  r.body.message_type == "output_audio_data" || r.tagElsewhere

/-- `AudioFrame.from_ws` (`base/audio.py` lines 71–118).  The source guards,
in order: a `str` frame not containing `"output_audio_data"` is rejected; a
`bytes` frame is rejected when `not b"output_audio_data" not in raw_msg`,
i.e. when the tag **is** present; then the JSON body must have
`message_type == "output_audio_data"` and a `data.data` payload; finally the
payload is base64-decoded and the frame is built from the resulting bytes
with the default `num_channels` and a derived `samples_per_channel` (decode
and construction errors return `None`). -/
def from_ws (raw : RawWs) (sample_rate : Nat := 24000) (num_channels : Nat := 1) :
    Option AudioFrame :=
  if !raw.isBytes && !raw.containsTag then none
  else if raw.isBytes && raw.containsTag then none
  else if raw.body.message_type ≠ "output_audio_data" then none
  else
    match raw.body.payload with
    | none => none
    | some b64 =>
        match b64decode b64 with
        | none => none
        | some audioBytes =>
            AudioFrame.init (.pybytes audioBytes) sample_rate num_channels none

/-! ## `config.py` — Config and its wire round trip

Python `float` parameters are modelled as `Rat`: `orjson` serializes an IEEE
double with a shortest round-tripping decimal, so the wire round trip is
exact on them and only their pass-through matters here.  Python `int`
parameters are `Int`, `str` are `String`. -/

/-- Modelled from the spec: `palabra_ai/lang.py` is missing from the source
tree.  Per `config.py` a `Language` is validated from and serialized to its
BCP-47 code (`validate_language` / `serialize_language`), so it is modelled
as that code. -/
structure Language where
  bcp47 : String
  deriving Repr, DecidableEq

/-- `Language.get_by_bcp47` as used by `validate_language` (`config.py`). -/
def Language.getByBcp47 (s : String) : Language := ⟨s⟩

/-- `class Preprocessing` (`config.py`). -/
structure Preprocessing where
  enable_vad : Bool
  vad_threshold : Rat
  vad_left_padding : Int
  vad_right_padding : Int
  pre_vad_denoise : Bool
  pre_vad_dsp : Bool
  record_tracks : List String
  auto_tempo : Bool
  deriving Repr, DecidableEq

/-- `class SplitterAdvanced` (`config.py`). -/
structure SplitterAdvanced where
  min_sentence_characters : Int
  min_sentence_seconds : Int
  min_split_interval : Rat
  context_size : Int
  segments_after_restart : Int
  step_size : Int
  max_steps_without_eos : Int
  force_end_of_segment : Rat
  deriving Repr, DecidableEq

/-- `class Splitter` (`config.py`). -/
structure Splitter where
  enabled : Bool
  splitter_model : String
  advanced : SplitterAdvanced
  deriving Repr, DecidableEq

/-- `class Verification` (`config.py`). -/
structure Verification where
  verification_model : String
  allow_verification_glossaries : Bool
  auto_transcription_correction : Bool
  transcription_correction_style : Option String
  deriving Repr, DecidableEq

/-- `class FillerPhrases` (`config.py`). -/
structure FillerPhrases where
  enabled : Bool
  min_transcription_len : Int
  min_transcription_time : Int
  phrase_chance : Rat
  deriving Repr, DecidableEq

/-- `class TranscriptionAdvanced` (`config.py`). -/
structure TranscriptionAdvanced where
  filler_phrases : FillerPhrases
  ignore_languages : List String
  deriving Repr, DecidableEq

/-- `class Transcription` (`config.py`) — the ASR parameter group. -/
structure TranscriptionCfg where
  detectable_languages : List String
  asr_model : String
  denoise : String
  allow_hotwords_glossaries : Bool
  supress_numeral_tokens : Bool
  diarize_speakers : Bool
  priority : String
  min_alignment_score : Rat
  max_alignment_cer : Rat
  segment_confirmation_silence_threshold : Rat
  only_confirm_by_silence : Bool
  batched_inference : Bool
  force_detect_language : Bool
  calculate_voice_loudness : Bool
  sentence_splitter : Splitter
  verification : Verification
  advanced : TranscriptionAdvanced
  deriving Repr, DecidableEq

/-- `class TimbreDetection` (`config.py`). -/
structure TimbreDetection where
  enabled : Bool
  high_timbre_voices : List String
  low_timbre_voices : List String
  deriving Repr, DecidableEq

/-- `class TTSAdvanced` (`config.py`). -/
structure TTSAdvanced where
  f0_variance_factor : Rat
  energy_variance_factor : Rat
  with_custom_stress : Bool
  deriving Repr, DecidableEq

/-- `class SpeechGen` (`config.py`). -/
structure SpeechGen where
  tts_model : String
  voice_cloning : Bool
  voice_cloning_mode : String
  denoise_voice_samples : Bool
  voice_id : String
  voice_timbre_detection : TimbreDetection
  speech_tempo_auto : Bool
  speech_tempo_timings_factor : Int
  speech_tempo_adjustment_factor : Rat
  advanced : TTSAdvanced
  deriving Repr, DecidableEq

/-- `class TranslationAdvanced` (`config.py`) — empty for now. -/
structure TranslationAdvanced where
  deriving Repr, DecidableEq

/-- `class Translation` (`config.py`) — the per-target parameter group. -/
structure TranslationCfg where
  allowed_source_languages : List String
  translation_model : String
  allow_translation_glossaries : Bool
  style : Option String
  translate_partial_transcriptions : Bool
  speech_generation : SpeechGen
  advanced : TranslationAdvanced
  deriving Repr, DecidableEq

/-- `class QueueConfig` (`config.py`). -/
structure QueueConfig where
  desired_queue_level_ms : Int
  max_queue_level_ms : Int
  auto_tempo : Bool
  deriving Repr, DecidableEq

/-- `class QueueConfigs` (`config.py`): the single field is dumped under its
alias `global` and re-validated from it (`populate_by_name=True`). -/
structure QueueConfigs where
  global_ : QueueConfig
  deriving Repr, DecidableEq

/-- `class InputStream` (`config.py`): `content_type` plus the `source`
string dict. -/
structure InputStream where
  content_type : String
  source : List (String × String)
  deriving Repr, DecidableEq

/-- `class OutputStream` (`config.py`). -/
structure OutputStream where
  content_type : String
  target : List (String × String)
  deriving Repr, DecidableEq

/-- `class SourceLang` (`config.py`): the serialized fields `lang` and
`transcription`, plus the `PrivateAttr`s `_reader` and `_on_transcription`
(opaque runtime handles, never serialized).  pydantic v2 equality compares
private attributes along with the fields, so they are part of the
structure. -/
structure SourceLang where
  lang : Language
  transcription : TranscriptionCfg
  reader : Option Nat
  on_transcription : Option Nat
  deriving Repr, DecidableEq

/-- `class TargetLang` (`config.py`): fields `lang` and `translation` plus
the `PrivateAttr`s `_writer` and `_on_transcription`. -/
structure TargetLang where
  lang : Language
  translation : TranslationCfg
  writer : Option Nat
  on_transcription : Option Nat
  deriving Repr, DecidableEq

/-- The `PALABRA_*` environment values `config.py` reads at import time;
they become the defaults of the `exclude=True` fields on re-validation. -/
structure Env where
  silent : Bool
  debug : Bool
  deep_debug : Bool
  timeout : Int
  log_file : Option String
  deriving Repr, DecidableEq

/-- `Path.with_suffix(".trace.json")` on the log-file path, as
`model_post_init` derives `trace_file`. -/
def withTraceSuffix (logFile : String) : String := logFile ++ ".trace.json"

/-- `class Config` (`config.py`): the serialized fields, the `exclude=True`
operational fields, and `trace_file` (derived from `log_file`).  The opaque
reader/writer/callback handles live inside `SourceLang`/`TargetLang`. -/
structure Config where
  source : Option SourceLang
  targets : List TargetLang
  input_stream : InputStream
  output_stream : OutputStream
  preprocessing : Preprocessing
  translation_queue_configs : QueueConfigs
  allowed_message_types : List String
  silent : Bool
  log_file : Option String
  debug : Bool
  deep_debug : Bool
  timeout : Int
  trace_file : Option String
  deriving Repr, DecidableEq

/-- The canonical wire object produced by `Config.model_dump` (`config.py`
lines 354–400): `input_stream`, `output_stream` and a `pipeline` holding
`preprocessing`, the `transcription` group with `source_language` injected,
the `translations` list with `target_language` injected in each element,
`translation_queue_configs` and `allowed_message_types`.  The language keys
are `Option`s because `reconstruct_from_serialized` tolerates and rejects
their absence when parsing arbitrary input. -/
structure ConfigWire where
  input_stream : InputStream
  output_stream : OutputStream
  preprocessing : Preprocessing
  transcription : TranscriptionCfg
  source_language : Option String
  translations : List (TranslationCfg × Option String)
  translation_queue_configs : QueueConfigs
  allowed_message_types : List String
  deriving Repr, DecidableEq

/-- `Config.model_dump` (`config.py` lines 354–400): fails (`none`) when
`source` is absent (the source indexes `source["transcription"]`), otherwise
restructures into the canonical wire form; the `exclude=True` fields and the
private reader/writer/callback handles are not serialized.  `to_json` is
this followed by the faithful orjson encoding of the wire object. -/
def configModelDump (c : Config) : Option ConfigWire :=
  match c.source with
  | none => none
  | some s =>
      some
        { input_stream := c.input_stream
          output_stream := c.output_stream
          preprocessing := c.preprocessing
          transcription := s.transcription
          source_language := some s.lang.bcp47
          translations := c.targets.map fun t => (t.translation, some t.lang.bcp47)
          translation_queue_configs := c.translation_queue_configs
          allowed_message_types := c.allowed_message_types }

/-- Parse one element of `translations` back into a `TargetLang`
(`reconstruct_from_serialized`, `config.py` lines 318–352): requires
`target_language`; the private `_writer`/`_on_transcription` attributes come
back as their `None` defaults. -/
def parseTarget : TranslationCfg × Option String → Option TargetLang
  | (_, none) => none
  | (tr, some tl) =>
      some { lang := Language.getByBcp47 tl, translation := tr,
             writer := none, on_transcription := none }

/-- `Config.from_json` over the wire object (`config.py` lines 402–410 with
the `reconstruct_from_serialized` validator, lines 318–352, and
`model_post_init`): the `pipeline` wrapper is flattened, `source_language`
and each `target_language` are required, the `exclude=True` fields come from
the environment and `trace_file` is re-derived from `log_file`; the private
reader/writer/callback handles come back as `None`. -/
def configFromJson (env : Env) (w : ConfigWire) : Option Config :=
  match w.source_language with
  | none => none
  | some sl =>
      match w.translations.mapM parseTarget with
      | none => none
      | some targets =>
          some
            { source := some { lang := Language.getByBcp47 sl
                               transcription := w.transcription
                               reader := none, on_transcription := none }
              targets := targets
              input_stream := w.input_stream
              output_stream := w.output_stream
              preprocessing := w.preprocessing
              translation_queue_configs := w.translation_queue_configs
              allowed_message_types := w.allowed_message_types
              silent := env.silent
              log_file := env.log_file
              debug := env.debug
              deep_debug := env.deep_debug
              timeout := env.timeout
              trace_file := env.log_file.map withTraceSuffix }

/-- `Config.from_json(cfg.to_json())`: the orjson encode/decode pair is the
identity on the wire object, so the round trip is dump then parse. -/
def configRoundtrip (env : Env) (c : Config) : Option Config :=
  (configModelDump c).bind (configFromJson env)

/-- The failing input for C9: the same `output_audio_data` frame delivered
as `bytes`. -/
def rawBytesEx : RawWs :=
  { isBytes := true
    body := { message_type := "output_audio_data"
              payload := some { b64valid := true, bytes := [1, 0, 2, 0] } }
    tagElsewhere := false }

/-- The same frame delivered as `str`. -/
def rawStrEx : RawWs := { rawBytesEx with isBytes := false }

/-- The invariant protecting a dedup key `k`: `k` sits in the set with a
suffix `l₂` of keys inserted after it, which are pairwise distinct, differ
from `k`, and all belong to the ambient key collection `K`.  Eviction only
removes from the prefix `l₁`, so `k` can only be evicted once `l₂` has grown
to the full capacity — impossible while `|K| < 100`. -/
def KeyInv (k : DedupKey) (K : Finset DedupKey) (s : CappedSet DedupKey) : Prop :=
  ∃ l₁ l₂, s.elems = l₁ ++ k :: l₂ ∧ l₂.Nodup ∧ k ∉ l₂ ∧ ∀ x ∈ l₂, x ∈ K

/-- Concrete parameter-group values for the C6 counterexample and witness. -/
def exTranscription : TranscriptionCfg :=
  { detectable_languages := [], asr_model := "auto", denoise := "none"
    allow_hotwords_glossaries := true, supress_numeral_tokens := false
    diarize_speakers := false, priority := "normal", min_alignment_score := 0
    max_alignment_cer := 0, segment_confirmation_silence_threshold := 0
    only_confirm_by_silence := false, batched_inference := false
    force_detect_language := false, calculate_voice_loudness := false
    sentence_splitter :=
      { enabled := true, splitter_model := "auto"
        advanced := { min_sentence_characters := 0, min_sentence_seconds := 0
                      min_split_interval := 0, context_size := 0
                      segments_after_restart := 0, step_size := 0
                      max_steps_without_eos := 0, force_end_of_segment := 0 } }
    verification :=
      { verification_model := "auto", allow_verification_glossaries := true
        auto_transcription_correction := false
        transcription_correction_style := none }
    advanced :=
      { filler_phrases := { enabled := false, min_transcription_len := 0
                            min_transcription_time := 0, phrase_chance := 0 }
        ignore_languages := [] } }

/-- Concrete translation group for the C6 counterexample and witness. -/
def exTranslation : TranslationCfg :=
  { allowed_source_languages := [], translation_model := "auto"
    allow_translation_glossaries := true, style := none
    translate_partial_transcriptions := false
    speech_generation :=
      { tts_model := "auto", voice_cloning := false
        voice_cloning_mode := "static_10", denoise_voice_samples := true
        voice_id := "default_low"
        voice_timbre_detection :=
          { enabled := false, high_timbre_voices := ["default_high"]
            low_timbre_voices := ["default_low"] }
        speech_tempo_auto := true, speech_tempo_timings_factor := 0
        speech_tempo_adjustment_factor := 0
        advanced := { f0_variance_factor := 0, energy_variance_factor := 0
                      with_custom_stress := true } }
    advanced := {} }

/-- The default environment (no `PALABRA_*` variables set). -/
def exEnv : Env :=
  { silent := false, debug := false, deep_debug := false, timeout := 0
    log_file := none }

/-- A well-formed config (EN source, ES target) carrying the given runtime
reader/writer handles. -/
def exConfig (reader writer : Option Nat) : Config :=
  { source := some { lang := ⟨"en"⟩, transcription := exTranscription
                     reader := reader, on_transcription := none }
    targets := [{ lang := ⟨"es"⟩, translation := exTranslation
                  writer := writer, on_transcription := none }]
    input_stream := { content_type := "audio", source := [("type", "livekit")] }
    output_stream := { content_type := "audio", target := [("type", "livekit")] }
    preprocessing := { enable_vad := true, vad_threshold := 0
                       vad_left_padding := 0, vad_right_padding := 0
                       pre_vad_denoise := false, pre_vad_dsp := true
                       record_tracks := [], auto_tempo := false }
    translation_queue_configs :=
      { global_ := { desired_queue_level_ms := 0, max_queue_level_ms := 0
                     auto_tempo := false } }
    allowed_message_types := ["translated_transcription"]
    silent := false, log_file := none, debug := false, deep_debug := false
    timeout := 0, trace_file := none }

end Palabra

namespace Palabra

/-! ## Theorems -/

/-- `put_nowait` succeeds with the appended item exactly when the queue is
not full, and raises `QueueFull` exactly when it is. -/
theorem BQueue.put_nowait_eq {T : Type} (q : BQueue T) (m : Option T) :
    q.put_nowait m =
      if q.isFull then none else some { q with items := q.items ++ [m] } := by
  simp only [put_nowait, isFull]
  by_cases h1 : q.maxsize = 0
  · simp [h1]
  · by_cases h2 : q.maxsize ≤ q.items.length
    · simp [h1, h2]
    · simp [h1, h2]

/-- C4: for every open FanoutQueue and every message, `publish` succeeds
without blocking the producer (it is total on open queues); every current
subscriber whose bounded queue has room receives the message appended to its
queue, and a subscriber whose queue is full has the message dropped for it
alone, its queue left unchanged. -/
theorem fanout_publish_drops_only_full {T : Type} (f : FanoutQueue T)
    (m : Option T) (h : f.closed = false) :
    ∃ f', f.publish m = some f' ∧ f'.closed = false ∧
      ∀ i : Nat,
        f'.subscribers[i]? = f.subscribers[i]?.map fun p =>
          (p.1, if p.2.isFull then p.2 else { p.2 with items := p.2.items ++ [m] }) := by
  unfold FanoutQueue.publish
  rw [if_neg (by simp [h])]
  refine ⟨_, rfl, h, ?_⟩
  intro i
  simp only [List.getElem?_map]
  rcases hi : f.subscribers[i]? with _ | ⟨sid, q⟩
  · rfl
  · simp only [Option.map_some', BQueue.put_nowait_eq]
    rcases hfull : q.isFull with _ | _
    · simp
    · simp

/-- C4 witness: a concrete open bus with one full and one roomy subscriber. -/
theorem fanout_publish_drops_only_full_witness :
    ∃ f', FanoutQueue.publish
        (T := Nat)
        { subscribers := [("full", ⟨1, [some 7]⟩), ("roomy", ⟨2, [some 7]⟩)],
          closed := false } (some 9) = some f' ∧ f'.closed = false ∧
      ∀ i : Nat,
        f'.subscribers[i]? =
          ([("full", (⟨1, [some 7]⟩ : BQueue Nat)), ("roomy", ⟨2, [some 7]⟩)])[i]?.map
            fun p =>
              (p.1, if p.2.isFull then p.2
                    else { p.2 with items := p.2.items ++ [some 9] }) :=
  fanout_publish_drops_only_full
    { subscribers := [("full", ⟨1, [some 7]⟩), ("roomy", ⟨2, [some 7]⟩)],
      closed := false } (some 9) rfl

/-- C5 counterexample: a non-cancellation exception raised by `do()` (and
likewise by `boot()`) does **not** escape `Task.run()`: the `except
Exception` branch logs without re-raising, so nothing reaches the structured
scope boundary. -/
theorem task_run_error_not_propagated_counterexample :
    (taskRun .ok (.error "boom")).escaped = none ∧
    (taskRun (.error "boom") .ok).escaped = none := by
  exact ⟨rfl, rfl⟩

/-- C5 amended: whatever `boot()` and `do()` do — normal return,
cancellation, or a non-cancellation exception — `Task.run()` swallows it:
nothing escapes to the structured scope boundary, the stopper latch is
raised, and the `exit` hook still runs (cancellation, in particular, is not
treated as failure). -/
theorem task_run_swallows_all (b d : Outcome) :
    (taskRun b d).escaped = none ∧ (taskRun b d).stopperSet = true ∧
    (taskRun b d).exitRan = true := by
  cases b <;> cases d <;> exact ⟨rfl, rfl, rfl⟩

/-- C8 counterexample: `AudioFrame.create` hands `__init__` a `bytearray`,
and `isinstance(bytearray, bytes)` is `False`, so the zeroed buffer is
stored unconverted: the created frame has
`len(data) = num_channels * samples_per_channel * 2` bytes, violating
`len(data) == num_channels * samples_per_channel` for every nonzero
frame — here 1 channel, 2 samples per channel, `len(data) = 4`. -/
theorem audioframe_invariant_counterexample :
    ∃ f, AudioFrame.create 24000 1 2 = some f ∧ ¬ f.invariantHolds :=
  ⟨{ data := .raw (List.replicate 4 0), sample_rate := 24000, num_channels := 1,
     samples_per_channel := 2 }, rfl, by decide⟩

/-- A frame built with `samples_per_channel` omitted carries the stated
channel count and the floor-derived samples per channel. -/
theorem AudioFrame.init_derived_eq (d : AudioData) (r ch : Nat) (f : AudioFrame)
    (h : AudioFrame.init d r ch none = some f) :
    f.num_channels = ch ∧ f.samples_per_channel = f.data.len / ch := by
  cases d with
  | pybytes bs =>
      simp only [init] at h
      obtain ⟨xs, hxs, hfe⟩ := Option.map_eq_some'.mp h
      subst hfe
      exact ⟨rfl, rfl⟩
  | pyraw dd =>
      simp only [init, Option.some_inj] at h
      subst h
      exact ⟨rfl, rfl⟩

/-- C8 amended: a frame built with `samples_per_channel` omitted satisfies
`len(data) == num_channels * samples_per_channel` whenever `num_channels`
divides the stored buffer's length — in particular every `from_ws` frame
(mono, derived samples per channel); `AudioFrame.create`, whose `bytearray`
bypasses the `bytes`-only `np.frombuffer` conversion, stores twice as many
byte elements as samples and satisfies the invariant only for empty frames;
an explicitly passed `samples_per_channel` (`__init__`, `from_rtc`) is
stored unchecked. -/
theorem audioframe_invariant_amended :
    (∀ (d : AudioData) (r ch : Nat) (f : AudioFrame),
        AudioFrame.init d r ch none = some f → ch ∣ f.data.len →
        f.invariantHolds) ∧
    (∀ (raw : RawWs) (r : Nat) (f : AudioFrame), from_ws raw r 1 = some f →
        f.invariantHolds) ∧
    (∀ r ch spc : Nat, ∃ f, AudioFrame.create r ch spc = some f ∧
        (f.invariantHolds ↔ ch * spc = 0)) ∧
    (∀ (d : AudioData) (r ch spc : Nat) (f : AudioFrame),
        AudioFrame.init d r ch (some spc) = some f →
        f.samples_per_channel = spc) := by
  have hderived : ∀ (d : AudioData) (r ch : Nat) (f : AudioFrame),
      AudioFrame.init d r ch none = some f → ch ∣ f.data.len →
      f.invariantHolds := by
    intro d r ch f h hdvd
    obtain ⟨hch, hspc⟩ := AudioFrame.init_derived_eq d r ch f h
    rw [AudioFrame.invariantHolds, hch, hspc]
    rcases Nat.eq_zero_or_pos ch with hch0 | hch0
    · subst hch0
      have hlen : f.data.len = 0 := Nat.eq_zero_of_zero_dvd hdvd
      simp [hlen]
    · exact (Nat.mul_div_cancel' hdvd).symm
  refine ⟨hderived, ?_, ?_, ?_⟩
  · intro raw r f hf
    unfold from_ws at hf
    split at hf
    · simp at hf
    · split at hf
      · simp at hf
      · split at hf
        · simp at hf
        · split at hf
          · simp at hf
          · rename_i b64 _
            rcases hb : b64decode b64 with _ | audioBytes <;> rw [hb] at hf
            · simp at hf
            · exact hderived _ r 1 f hf (one_dvd _)
  · intro r ch spc
    refine ⟨{ data := .raw (List.replicate (ch * spc * 2) 0), sample_rate := r,
              num_channels := ch, samples_per_channel := spc }, rfl, ?_⟩
    have key : ∀ a : Nat, a * 2 = a ↔ a = 0 := by intro a; omega
    simpa [AudioFrame.invariantHolds, PCMData.len] using key (ch * spc)
  · intro d r ch spc f h
    cases d with
    | pybytes bs =>
        simp only [AudioFrame.init] at h
        obtain ⟨xs, hxs, hfe⟩ := Option.map_eq_some'.mp h
        subst hfe
        rfl
    | pyraw dd =>
        simp only [AudioFrame.init, Option.some_inj] at h
        subst h
        rfl

/-- C8 amended witness: a concrete derived-spc frame from bytes, a concrete
`from_ws` frame, a concrete created frame (invariant fails, as its size is
nonzero), and a concrete unchecked explicit `samples_per_channel`. -/
theorem audioframe_invariant_amended_witness :
    ({ data := PCMData.samples [1, 2, 3, 4], sample_rate := 48000,
       num_channels := 2, samples_per_channel := 2 } : AudioFrame).invariantHolds ∧
    ({ data := PCMData.samples [1, 2], sample_rate := 24000, num_channels := 1,
       samples_per_channel := 2 } : AudioFrame).invariantHolds ∧
    (∃ f, AudioFrame.create 24000 1 2 = some f ∧
        (f.invariantHolds ↔ 1 * 2 = 0)) ∧
    ({ data := PCMData.samples [1, 2], sample_rate := 8000, num_channels := 1,
       samples_per_channel := 7 } : AudioFrame).samples_per_channel = 7 :=
  ⟨audioframe_invariant_amended.1 (.pybytes [1, 0, 2, 0, 3, 0, 4, 0]) 48000 2 _
      rfl (by decide),
   audioframe_invariant_amended.2.1 rawStrEx 24000 _ rfl,
   audioframe_invariant_amended.2.2.1 24000 1 2,
   audioframe_invariant_amended.2.2.2 (.pyraw (.samples [1, 2])) 8000 1 7 _ rfl⟩

/-- C9: the `bytes` guard of `AudioFrame.from_ws` is inverted
(`not b"output_audio_data" not in raw_msg` rejects exactly the frames that
**do** carry the tag), so a well-formed `output_audio_data` frame delivered
as `bytes` yields `None`, while the identical frame delivered as `str`
yields the AudioFrame whose PCM equals the base64-decoded payload. -/
theorem from_ws_bytes_guard_inverted :
    from_ws rawBytesEx 24000 1 = none ∧
    from_ws rawStrEx 24000 1 =
      some { data := PCMData.samples [1, 2], sample_rate := 24000,
             num_channels := 1, samples_per_channel := 2 } := by
  exact ⟨rfl, rfl⟩

/-- C10: whenever `Writer._process_queue` terminates — by the stop
condition, by the `None` sentinel (which raises `eof`), by cancellation, or
by a `_write_frame` exception — its `finally` block runs `_finalize()`
exactly once, and `Writer.exit` adds no finalize call of its own. -/
theorem writer_finalize_exactly_once (e₀ : Bool) (script : List (Bool × WEvent))
    (r : WQResult) (h : processQueue e₀ script = some r) :
    r.finalizeRuns = 1 ∧ (r.outcome = .normal → r.eofSet = true) ∧
    writerExitFinalizeCalls = 0 := by
  induction script generalizing r with
  | nil => simp [processQueue] at h
  | cons step rest ih =>
      obtain ⟨stopper, ev⟩ := step
      simp only [processQueue] at h
      split at h
      · rename_i hcond
        obtain ⟨hs, he⟩ := hcond
        simp only [Option.some_inj] at h
        subst h
        exact ⟨rfl, fun _ => by simpa using he, rfl⟩
      · cases ev with
        | frame f =>
            rcases hrec : processQueue e₀ rest with _ | r'
            · rw [hrec] at h; exact absurd h (by simp)
            · rw [hrec] at h
              simp only [Option.map_some', Option.some_inj] at h
              subst h
              obtain ⟨h1, h2, h3⟩ := ih r' hrec
              exact ⟨h1, h2, h3⟩
        | timeoutTick => exact ih r h
        | sentinel =>
            simp only [Option.some_inj] at h
            subst h
            exact ⟨rfl, fun _ => rfl, rfl⟩
        | cancel =>
            simp only [Option.some_inj] at h
            subst h
            exact ⟨rfl, fun hn => by simp at hn, rfl⟩
        | writeError f =>
            simp only [Option.some_inj] at h
            subst h
            exact ⟨rfl, fun hn => by simp at hn, rfl⟩

/-- `add` never changes the capacity. -/
theorem CappedSet.capacity_add {K : Type} [DecidableEq K]
    (s : CappedSet K) (k : K) : (s.add k).capacity = s.capacity := by
  unfold add
  split
  · rfl
  · dsimp only
    split <;> rfl

/-- `add` keeps the size within the capacity. -/
theorem CappedSet.size_add_le {K : Type} [DecidableEq K]
    (s : CappedSet K) (k : K) (h : s.size ≤ s.capacity) :
    (s.add k).size ≤ s.capacity := by
  unfold add
  split
  · exact h
  · dsimp only
    split
    · rename_i hlen
      simp only [size, List.length_tail, List.length_append,
        List.length_singleton] at *
      omega
    · rename_i hlen
      simp only [size, List.length_append, List.length_singleton] at *
      omega

/-- Folding `add` from a within-capacity state stays within capacity. -/
theorem CappedSet.size_foldl_le {K : Type} [DecidableEq K]
    (ops : List K) (s : CappedSet K) (h : s.size ≤ s.capacity) :
    (ops.foldl CappedSet.add s).size ≤ s.capacity := by
  induction ops generalizing s with
  | nil => exact h
  | cons k rest ih =>
      simp only [List.foldl_cons]
      have := ih (s.add k) (by rw [CappedSet.capacity_add]; exact s.size_add_le k h)
      rwa [CappedSet.capacity_add] at this

/-- C7: for every sequence of `add`s on the capacity-100 CappedSet used as
`Realtime._dedup`, the size never exceeds 100; adding a present key is a
no-op; adding a new key with room inserts it at the tail; and adding a new
key at capacity evicts exactly the oldest (head) key — FIFO eviction. -/
theorem cappedset_bound_and_fifo :
    (∀ ops : List DedupKey,
        (ops.foldl CappedSet.add (CappedSet.empty DedupKey 100)).size ≤ 100) ∧
    (∀ (s : CappedSet DedupKey) (k : DedupKey),
        s.contains k = true → s.add k = s) ∧
    (∀ (s : CappedSet DedupKey) (k : DedupKey),
        s.contains k = false → s.size < s.capacity →
        (s.add k).elems = s.elems ++ [k]) ∧
    (∀ (s : CappedSet DedupKey) (k : DedupKey),
        s.contains k = false → s.capacity ≤ s.size → 0 < s.capacity →
        (s.add k).elems = s.elems.tail ++ [k]) := by
  refine ⟨?_, ?_, ?_, ?_⟩
  · intro ops
    exact CappedSet.size_foldl_le ops _ (by simp [CappedSet.size, CappedSet.empty])
  · intro s k h
    unfold CappedSet.add
    rw [if_pos h]
  · intro s k h hroom
    unfold CappedSet.add
    rw [if_neg (by simp [h])]
    dsimp only
    rw [if_neg]
    simp only [CappedSet.size] at hroom
    simp only [List.length_append, List.length_singleton]
    omega
  · intro s k h hfull hpos
    unfold CappedSet.add
    rw [if_neg (by simp [h])]
    dsimp only
    rw [if_pos]
    · rcases hel : s.elems with _ | ⟨hd, tl⟩
      · simp only [CappedSet.size, hel, List.length_nil] at hfull
        omega
      · simp [hel]
    · simp only [CappedSet.size] at hfull
      simp only [List.length_append, List.length_singleton]
      omega

/-- C7 witness: the conjuncts applied at concrete sets and keys. -/
theorem cappedset_bound_and_fifo_witness :
    ((List.replicate 250 (("a", "b", "c") : DedupKey)).foldl CappedSet.add
        (CappedSet.empty DedupKey 100)).size ≤ 100 ∧
    (CappedSet.add ⟨100, [("a", "b", "c")]⟩ ("a", "b", "c")
        = (⟨100, [("a", "b", "c")]⟩ : CappedSet DedupKey)) ∧
    (CappedSet.add (⟨100, [("a", "b", "c")]⟩ : CappedSet DedupKey) ("d", "e", "f")).elems
        = [("a", "b", "c")] ++ [("d", "e", "f")] ∧
    (CappedSet.add (⟨1, [("a", "b", "c")]⟩ : CappedSet DedupKey) ("d", "e", "f")).elems
        = [("a", "b", "c")].tail ++ [("d", "e", "f")] :=
  ⟨cappedset_bound_and_fifo.1 (List.replicate 250 ("a", "b", "c")),
   cappedset_bound_and_fifo.2.1 ⟨100, [("a", "b", "c")]⟩ ("a", "b", "c") (by decide),
   cappedset_bound_and_fifo.2.2.1 ⟨100, [("a", "b", "c")]⟩ ("d", "e", "f")
     (by decide) (by decide),
   cappedset_bound_and_fifo.2.2.2 ⟨1, [("a", "b", "c")]⟩ ("d", "e", "f")
     (by decide) (by decide) (by decide)⟩

/-- Unfolding equation for `routeOut` on a cons. -/
theorem routeOut_cons (s : CappedSet DedupKey) (m : Msg) (rest : List Msg) :
    routeOut s (m :: rest) =
      (if (dedupOk s m).1 then m :: (routeOut (dedupOk s m).2 rest).1
         else (routeOut (dedupOk s m).2 rest).1,
       (routeOut (dedupOk s m).2 rest).2) := rfl

/-- `routeOut` over an appended message list threads the dedup state. -/
theorem routeOut_append (s : CappedSet DedupKey) (a b : List Msg) :
    routeOut s (a ++ b) =
      ((routeOut s a).1 ++ (routeOut (routeOut s a).2 b).1,
       (routeOut (routeOut s a).2 b).2) := by
  induction a generalizing s with
  | nil => simp [routeOut]
  | cons m rest ih =>
      simp only [List.cons_append, routeOut_cons, ih]
      split <;> simp

/-- Membership in the capped set makes `contains` true. -/
theorem CappedSet.contains_of_mem {K : Type} [DecidableEq K]
    {s : CappedSet K} {a : K} (h : a ∈ s.elems) : s.contains a = true := by
  simpa [CappedSet.contains] using h

theorem KeyInv.mem {k : DedupKey} {K : Finset DedupKey}
    {s : CappedSet DedupKey} (h : KeyInv k K s) : k ∈ s.elems := by
  obtain ⟨l₁, l₂, hel, -, -, -⟩ := h
  rw [hel]
  exact List.mem_append_right _ (List.mem_cons_self _ _)

/-- Adding a fresh key `j ∈ K`, `j ≠ k` preserves the invariant while fewer
than 100 keys are in play: the eviction (if any) removes the head of the
prefix, never `k` itself. -/
theorem KeyInv.add_new {k j : DedupKey} {K : Finset DedupKey}
    {s : CappedSet DedupKey} (hcap : s.capacity = 100) (hK : K.card < 100)
    (hj : j ∈ K) (hjk : j ≠ k) (hnot : s.contains j = false)
    (hinv : KeyInv k K s) : KeyInv k K (s.add j) := by
  obtain ⟨l₁, l₂, hel, hnd, hk2, hsub⟩ := hinv
  have hjl₂ : j ∉ l₂ := by
    intro hmem
    have : j ∈ s.elems := by
      rw [hel]
      exact List.mem_append_right _ (List.mem_cons_of_mem _ hmem)
    rw [CappedSet.contains_of_mem this] at hnot
    exact absurd hnot (by simp)
  have hnd' : (l₂ ++ [j]).Nodup := by
    simp [List.nodup_append, hnd, hjl₂]
  have hk2' : k ∉ l₂ ++ [j] := by
    simp only [List.mem_append, List.mem_singleton]
    rintro (h | h)
    · exact hk2 h
    · exact hjk h.symm
  have hsub' : ∀ x ∈ l₂ ++ [j], x ∈ K := by
    intro x hx
    rcases List.mem_append.mp hx with h | h
    · exact hsub x h
    · rw [List.mem_singleton.mp h]; exact hj
  unfold CappedSet.add
  rw [if_neg (by simp [hnot])]
  dsimp only
  split
  · rename_i hlen
    rcases l₁ with _ | ⟨hd, t⟩
    · exfalso
      rw [hel, hcap] at hlen
      simp only [List.nil_append, List.length_append, List.length_cons,
        List.length_singleton, List.length_nil] at hlen
      have hndj : (j :: l₂).Nodup := by simp [List.nodup_cons, hjl₂, hnd]
      have hsubj : (j :: l₂).toFinset ⊆ K := by
        intro x hx
        rw [List.mem_toFinset] at hx
        rcases List.mem_cons.mp hx with h | h
        · rw [h]; exact hj
        · exact hsub x h
      have hcard : (j :: l₂).toFinset.card = l₂.length + 1 := by
        rw [List.toFinset_card_of_nodup hndj, List.length_cons]
      have := Finset.card_le_card hsubj
      omega
    · refine ⟨t, l₂ ++ [j], ?_, hnd', hk2', hsub'⟩
      rw [hel]
      simp
  · refine ⟨l₁, l₂ ++ [j], ?_, hnd', hk2', hsub'⟩
    rw [hel]
    simp

/-- Inserting `k` itself into a capacity-100 set not containing it
establishes the invariant with an empty suffix. -/
theorem KeyInv.add_self (k : DedupKey) (K : Finset DedupKey)
    {s : CappedSet DedupKey} (hcap : s.capacity = 100)
    (hnot : s.contains k = false) : KeyInv k K (s.add k) := by
  unfold CappedSet.add
  rw [if_neg (by simp [hnot])]
  dsimp only
  split
  · rename_i hlen
    rcases hel : s.elems with _ | ⟨hd, t⟩
    · rw [hel, hcap] at hlen
      simp at hlen
    · exact ⟨t, [], by simp, by simp, by simp, by simp⟩
  · exact ⟨s.elems, [], by simp, by simp, by simp, by simp⟩

/-- One `dedup_ok` step preserves the invariant, keeps capacity 100, and can
only announce `True` for a message whose key is not `k`. -/
theorem KeyInv.dedupOk_step {k : DedupKey} {K : Finset DedupKey}
    {s : CappedSet DedupKey} (m : Msg)
    (hcap : s.capacity = 100) (hK : K.card < 100)
    (hm : ∀ j, m.dedup = some j → j ≠ k → j ∈ K)
    (hinv : KeyInv k K s) :
    KeyInv k K (dedupOk s m).2 ∧ (dedupOk s m).2.capacity = 100 ∧
      ((dedupOk s m).1 = true → m.dedup ≠ some k) := by
  rcases hd : m.dedup with _ | j
  · refine ⟨by simpa [dedupOk, hd] using hinv, by simpa [dedupOk, hd] using hcap, ?_⟩
    intro _ hcontra
    simp at hcontra
  · by_cases hc : s.contains j = true
    · refine ⟨by simpa [dedupOk, hd, hc] using hinv,
        by simpa [dedupOk, hd, hc] using hcap, ?_⟩
      intro hver
      simp [dedupOk, hd, hc] at hver
    · have hcb : s.contains j = false := by
        rcases h : s.contains j with _ | _
        · rfl
        · exact absurd h hc
      by_cases hjk : j = k
      · exfalso
        apply hc
        rw [hjk]
        exact CappedSet.contains_of_mem hinv.mem
      · refine ⟨?_, ?_, ?_⟩
        · simpa [dedupOk, hd, hcb] using
            hinv.add_new hcap hK (hm j hd hjk) hjk hcb
        · simp [dedupOk, hd, hcb, CappedSet.capacity_add, hcap]
        · intro _ hcontra
          exact hjk (by simpa using hcontra)

/-- Routing a batch of intervening messages preserves the invariant and
publishes no message keyed `k`. -/
theorem KeyInv.routeOut_batch {k : DedupKey} {K : Finset DedupKey}
    (mids : List Msg) {s : CappedSet DedupKey}
    (hcap : s.capacity = 100) (hK : K.card < 100)
    (hm : ∀ m ∈ mids, ∀ j, m.dedup = some j → j ≠ k → j ∈ K)
    (hinv : KeyInv k K s) :
    KeyInv k K (routeOut s mids).2 ∧ (routeOut s mids).2.capacity = 100 ∧
      ∀ m ∈ (routeOut s mids).1, m.dedup ≠ some k := by
  induction mids generalizing s with
  | nil => exact ⟨hinv, hcap, by simp [routeOut]⟩
  | cons m rest ih =>
      obtain ⟨hinv', hcap', hver⟩ :=
        hinv.dedupOk_step m hcap hK (hm m (List.mem_cons_self _ _))
      obtain ⟨ih1, ih2, ih3⟩ :=
        ih hcap' (fun m' hm' => hm m' (List.mem_cons_of_mem _ hm')) hinv'
      rw [routeOut_cons]
      refine ⟨ih1, ih2, ?_⟩
      intro x hx
      dsimp only at hx
      by_cases hok : (dedupOk s m).1 = true
      · rw [if_pos hok] at hx
        rcases List.mem_cons.mp hx with h | h
        · rw [h]; exact hver hok
        · exact ih3 x h
      · rw [if_neg hok] at hx
        exact ih3 x hx

/-- C3: when two TranscriptionMessages with the same dedup key pass through
Realtime's inbound routing and fewer than 100 distinct other keys intervene
(and the key is not already in the dedup set), `dedup_ok` accepts the first
and rejects the second, so exactly one message with that key is published to
`out_foq`; non-transcription messages always pass through untouched. -/
theorem dedup_publishes_exactly_once
    (s₀ : CappedSet DedupKey) (m₁ m₂ : Msg) (kk : DedupKey) (mids : List Msg)
    (h₁ : m₁.dedup = some kk) (h₂ : m₂.dedup = some kk)
    (hcap : s₀.capacity = 100)
    (hnotin : s₀.contains kk = false)
    (hmids : ((mids.filterMap Msg.dedup).filter
        (fun j => j ≠ kk)).toFinset.card < 100) :
    ((routeOut s₀ (m₁ :: (mids ++ [m₂]))).1.countP
        (fun m => m.dedup == some kk)) = 1 ∧
    ∀ (s : CappedSet DedupKey) (t : String), dedupOk s (Msg.other t) = (true, s) := by
  refine ⟨?_, fun s t => rfl⟩
  have h0 : dedupOk s₀ m₁ = (true, s₀.add kk) := by
    simp [dedupOk, h₁, hnotin]
  have hinv1 : KeyInv kk ((mids.filterMap Msg.dedup).filter
      (fun j => j ≠ kk)).toFinset (s₀.add kk) :=
    KeyInv.add_self kk _ hcap hnotin
  have hcap1 : (s₀.add kk).capacity = 100 := by
    rw [CappedSet.capacity_add]; exact hcap
  have hm : ∀ m ∈ mids, ∀ j, m.dedup = some j → j ≠ kk →
      j ∈ ((mids.filterMap Msg.dedup).filter (fun j => j ≠ kk)).toFinset := by
    intro m hmem j hdj hjk
    rw [List.mem_toFinset, List.mem_filter]
    exact ⟨List.mem_filterMap.mpr ⟨m, hmem, hdj⟩, by simpa using hjk⟩
  obtain ⟨hinv2, hcap2, hpub⟩ := KeyInv.routeOut_batch mids hcap1 hmids hm hinv1
  have hlast : dedupOk (routeOut (s₀.add kk) mids).2 m₂
      = (false, (routeOut (s₀.add kk) mids).2) := by
    have hc : (routeOut (s₀.add kk) mids).2.contains kk = true :=
      CappedSet.contains_of_mem hinv2.mem
    simp [dedupOk, h₂, hc]
  rw [routeOut_cons, h0]
  dsimp only
  rw [if_pos rfl, routeOut_append, routeOut_cons, hlast]
  dsimp only
  rw [if_neg (by simp)]
  simp only [routeOut, List.countP_cons, List.countP_append]
  have hm₁ : (m₁.dedup == some kk) = true := by simp [h₁]
  have hmids0 : (routeOut (s₀.add kk) mids).1.countP
      (fun m => m.dedup == some kk) = 0 := by
    rw [List.countP_eq_zero]
    intro m hmem
    simpa using hpub m hmem
  rw [hm₁, hmids0]
  rfl

/-- C3 witness: a fresh dedup set, two identical transcription messages with
one status message between them — exactly one copy is published. -/
theorem dedup_publishes_exactly_once_witness :
    ((routeOut (CappedSet.empty DedupKey 100)
        (Msg.transcription "1" "hi" "partial_transcription" "en" ::
          ([Msg.other "queue_status"] ++
            [Msg.transcription "1" "hi" "partial_transcription" "es"]))).1.countP
      (fun m => m.dedup == some ("1", "hi", "partial_transcription"))) = 1 ∧
    ∀ (s : CappedSet DedupKey) (t : String), dedupOk s (Msg.other t) = (true, s) :=
  dedup_publishes_exactly_once (CappedSet.empty DedupKey 100)
    (Msg.transcription "1" "hi" "partial_transcription" "en")
    (Msg.transcription "1" "hi" "partial_transcription" "es")
    ("1", "hi", "partial_transcription") [Msg.other "queue_status"]
    rfl rfl rfl (by decide) (by decide)

/-- C2: in every shutdown trace the Manager produces — whatever order the
parallel shutdowns complete in — the stopper latches of Reader and Sender
are raised strictly before the stopper latch of Receiver, and the Writer's
stopper (writer mercy, which precedes `Writer.finalize`) is raised only
after Receiver's shutdown has been awaited. -/
theorem manager_shutdown_ordering (o₁ o₂ : List TaskId)
    (h₁ : o₁.Perm [.reader, .sender])
    (h₂ : o₂.Perm [.receiver, .rtmon, .transcription, .rt]) :
    (managerShutdownTrace o₁ o₂).indexOf (MEv.stopperRaise .reader) <
      (managerShutdownTrace o₁ o₂).indexOf (MEv.stopperRaise .receiver) ∧
    (managerShutdownTrace o₁ o₂).indexOf (MEv.stopperRaise .sender) <
      (managerShutdownTrace o₁ o₂).indexOf (MEv.stopperRaise .receiver) ∧
    (managerShutdownTrace o₁ o₂).indexOf (MEv.awaited .receiver) <
      (managerShutdownTrace o₁ o₂).indexOf (MEv.stopperRaise .writer) := by
  have e₁ : o₁.length = 2 := by simpa using h₁.length_eq
  have e₂ : o₂.length = 4 := by simpa using h₂.length_eq
  have htr : managerShutdownTrace o₁ o₂ =
      MEv.stopperRaise .manager :: MEv.stopperRaise .reader ::
        MEv.stopperRaise .sender ::
        (o₁.map MEv.awaited ++
          (MEv.slept :: MEv.stopperRaise .receiver :: MEv.stopperRaise .rtmon ::
            MEv.stopperRaise .transcription :: MEv.stopperRaise .rt ::
            (o₂.map MEv.awaited ++
              [MEv.stopperRaise .manager, MEv.stopperRaise .writer,
               MEv.awaited .writer, MEv.stopperRaise .manager,
               MEv.stopperRaise .stat]))) := by
    simp [managerShutdownTrace, gatherShutdown]
  have hsr₁ : ∀ x : TaskId, MEv.stopperRaise x ∉ o₁.map MEv.awaited := by
    intro x
    simp [List.mem_map]
  have hsr₂ : ∀ x : TaskId, MEv.stopperRaise x ∉ o₂.map MEv.awaited := by
    intro x
    simp [List.mem_map]
  have hrec₁ : TaskId.receiver ∉ o₁ := by
    intro hmem
    have := h₁.mem_iff.mp hmem
    simp at this
  have hawrec₁ : MEv.awaited TaskId.receiver ∉ o₁.map MEv.awaited := by
    intro hmem
    rw [List.mem_map] at hmem
    obtain ⟨y, hy, hxy⟩ := hmem
    cases hxy
    exact hrec₁ hy
  have hawrec₂ : MEv.awaited TaskId.receiver ∈ o₂.map MEv.awaited :=
    List.mem_map_of_mem _ (h₂.mem_iff.mpr (by simp))
  have ireader : (managerShutdownTrace o₁ o₂).indexOf
      (MEv.stopperRaise .reader) = 1 := by
    simp [htr, List.indexOf_cons]
  have isender : (managerShutdownTrace o₁ o₂).indexOf
      (MEv.stopperRaise .sender) = 2 := by
    simp [htr, List.indexOf_cons]
  have ireceiver : (managerShutdownTrace o₁ o₂).indexOf
      (MEv.stopperRaise .receiver) = 6 := by
    simp [htr, List.indexOf_cons,
      List.indexOf_append_of_not_mem (hsr₁ TaskId.receiver), e₁]
  have iwriter : (managerShutdownTrace o₁ o₂).indexOf
      (MEv.stopperRaise .writer) = 15 := by
    simp [htr, List.indexOf_cons,
      List.indexOf_append_of_not_mem (hsr₁ TaskId.writer),
      List.indexOf_append_of_not_mem (hsr₂ TaskId.writer), e₁, e₂]
  have iawrec : (managerShutdownTrace o₁ o₂).indexOf
      (MEv.awaited .receiver) ≤ 13 := by
    have hlt : List.indexOf (MEv.awaited TaskId.receiver) (o₂.map MEv.awaited)
        < (o₂.map MEv.awaited).length := List.indexOf_lt_length.mpr hawrec₂
    simp only [List.length_map, e₂] at hlt
    rw [htr, List.indexOf_cons_ne _ (by decide), List.indexOf_cons_ne _ (by decide),
      List.indexOf_cons_ne _ (by decide),
      List.indexOf_append_of_not_mem hawrec₁,
      List.indexOf_cons_ne _ (by decide), List.indexOf_cons_ne _ (by decide),
      List.indexOf_cons_ne _ (by decide), List.indexOf_cons_ne _ (by decide),
      List.indexOf_cons_ne _ (by decide),
      List.indexOf_append_of_mem hawrec₂, List.length_map, e₁]
    omega
  refine ⟨?_, ?_, ?_⟩
  · rw [ireader, ireceiver]; omega
  · rw [isender, ireceiver]; omega
  · rw [iwriter]; omega

/-- C2 witness: the ordering theorem at concrete completion orders. -/
theorem manager_shutdown_ordering_witness :
    (managerShutdownTrace [.sender, .reader] [.rt, .receiver, .rtmon, .transcription]).indexOf
        (MEv.stopperRaise .reader) <
      (managerShutdownTrace [.sender, .reader]
          [.rt, .receiver, .rtmon, .transcription]).indexOf
        (MEv.stopperRaise .receiver) ∧
    (managerShutdownTrace [.sender, .reader]
        [.rt, .receiver, .rtmon, .transcription]).indexOf
        (MEv.stopperRaise .sender) <
      (managerShutdownTrace [.sender, .reader]
          [.rt, .receiver, .rtmon, .transcription]).indexOf
        (MEv.stopperRaise .receiver) ∧
    (managerShutdownTrace [.sender, .reader]
        [.rt, .receiver, .rtmon, .transcription]).indexOf
        (MEv.awaited .receiver) <
      (managerShutdownTrace [.sender, .reader]
          [.rt, .receiver, .rtmon, .transcription]).indexOf
        (MEv.stopperRaise .writer) :=
  manager_shutdown_ordering [.sender, .reader] [.rt, .receiver, .rtmon, .transcription]
    (by decide) (by decide)

/-- Parsing the dumped `translations` list restores the targets when their
runtime attachments are absent. -/
theorem parseTargets_roundtrip (ts : List TargetLang)
    (h : ∀ t ∈ ts, t.writer = none ∧ t.on_transcription = none) :
    (ts.map fun t => (t.translation, some t.lang.bcp47)).mapM parseTarget
      = some ts := by
  induction ts with
  | nil => rfl
  | cons t rest ih =>
      obtain ⟨hw, ho⟩ := h t (List.mem_cons_self _ _)
      have ht : parseTarget (t.translation, some t.lang.bcp47) = some t := by
        obtain ⟨⟨bc⟩, tr, w, o⟩ := t
        simp only at hw ho
        subst hw ho
        rfl
      simp only [List.map_cons, List.mapM_cons, ht,
        ih fun t' ht' => h t' (List.mem_cons_of_mem _ ht'), Option.bind_eq_bind,
        Option.some_bind, Option.pure_def]

/-- C6 amended: the wire round trip `Config.from_json(cfg.to_json())`
reproduces the Config exactly when the runtime attachments the wire form
drops — the `_reader`/`_writer`/`_on_transcription` private attributes
(which pydantic v2 `==` compares alongside the fields) — are absent and the
`exclude=True` operational fields match the environment the parse will
re-read. -/
theorem config_roundtrip_amended (env : Env) (c : Config) (s : SourceLang)
    (hsrc : c.source = some s)
    (hreader : s.reader = none) (hsot : s.on_transcription = none)
    (htargets : ∀ t ∈ c.targets, t.writer = none ∧ t.on_transcription = none)
    (hsilent : c.silent = env.silent) (hdebug : c.debug = env.debug)
    (hdeep : c.deep_debug = env.deep_debug) (htimeout : c.timeout = env.timeout)
    (hlog : c.log_file = env.log_file)
    (htrace : c.trace_file = env.log_file.map withTraceSuffix) :
    configRoundtrip env c = some c := by
  obtain ⟨⟨bc⟩, str, srd, sot⟩ := s
  simp only at hreader hsot
  subst hreader hsot
  obtain ⟨csrc, cts, cis, cos, cpre, ctqc, camt, csil, clog, cdbg, cdeep, ctm, ctr⟩ := c
  simp only at hsrc htargets hsilent hdebug hdeep htimeout hlog htrace
  subst hsrc hsilent hdebug hdeep htimeout hlog htrace
  simp only [configRoundtrip, configModelDump, Option.bind_some, Option.some_bind,
    configFromJson, parseTargets_roundtrip cts htargets, Language.getByBcp47]

/-- C6 counterexample: a well-formed Config with a Reader and Writer
attached (as Manager requires) does **not** round-trip to an equal Config:
the wire form drops the private `_reader`/`_writer` attachments, and
pydantic v2 `==` compares private attributes, so the re-parsed Config
differs from the original. -/
theorem config_roundtrip_counterexample :
    configRoundtrip exEnv (exConfig (some 0) (some 0))
      ≠ some (exConfig (some 0) (some 0)) := by
  decide

/-- C6 amended witness: the same Config without runtime attachments
round-trips exactly. -/
theorem config_roundtrip_amended_witness :
    configRoundtrip exEnv (exConfig none none) = some (exConfig none none) :=
  config_roundtrip_amended exEnv (exConfig none none)
    { lang := ⟨"en"⟩, transcription := exTranscription
      reader := none, on_transcription := none }
    rfl rfl rfl (by decide) rfl rfl rfl rfl rfl rfl

/-- C1 counterexample: when `Reader.read()` returns `None`, the Sender's
`do` loop raises `eof` and stops, but it emits **no** `end_task` message on
the control path (no control message at all): the `end_task` of the claim is
not produced by the Sender. -/
theorem sender_no_end_task_counterexample :
    (senderDo [none]).eofSet = true ∧
    Msg.other "end_task" ∉ (senderDo [none]).controlMsgs := by
  decide

/-- C1 amended: on Reader EOF the Sender raises its `eof` latch and stops
reading further chunks; chunks that are empty but not `None` are skipped
without transmission, and exactly the non-empty chunks read before EOF are
pushed to the media track.  The Sender itself emits nothing on the control
path; the `end_task` message is sent by the control transport's close
(`Ws.close`) during the subsequent graceful shutdown. -/
theorem sender_eof_behavior (pre : List (List Nat)) (post : List ReadResult) :
    (senderDo (pre.map some ++ none :: post)).eofSet = true ∧
    (senderDo (pre.map some ++ none :: post)).controlMsgs = [] ∧
    (senderDo (pre.map some ++ none :: post)).pushed
        = pre.filter (fun c => !c.isEmpty) ∧
    (senderDo (pre.map some ++ none :: post)).readsConsumed = pre.length + 1 ∧
    wsClose true = [Msg.other "end_task"] := by
  induction pre with
  | nil => exact ⟨rfl, rfl, rfl, rfl, rfl⟩
  | cons c rest ih =>
      obtain ⟨h1, h2, h3, h4, _⟩ := ih
      by_cases hc : c.isEmpty
      · simp [senderDo, hc, h1, h2, h3, h4, List.filter_cons, wsClose]
      · simp [senderDo, hc, h1, h2, h3, h4, List.filter_cons, wsClose]

/-- C10 witness: a run that writes one frame and ends on the sentinel
finalizes exactly once. -/
theorem writer_finalize_exactly_once_witness :
    ∃ r, processQueue false [(false, WEvent.frame 3), (false, WEvent.sentinel)]
        = some r ∧
      r.finalizeRuns = 1 ∧ (r.outcome = .normal → r.eofSet = true) ∧
      writerExitFinalizeCalls = 0 :=
  ⟨_, rfl, writer_finalize_exactly_once false
    [(false, WEvent.frame 3), (false, WEvent.sentinel)] _ rfl⟩

end Palabra
